import Mathlib

/-!
# Verification of the minilink URL-shortening backend

This file gives a shallow embedding of the minilink backend (Fastify +
Drizzle ORM + PostgreSQL) and proves properties of its five operations:

* `POST /shorten`        — `shortenHandler`       (src/routes/urlRoutes.ts)
* `GET /urls/:id/stats`  — `statsHandler`         (src/routes/urlRoutes.ts)
* `GET /:shortId`        — `redirectHandler`      (src/routes/urlRoutes.ts)
* `POST /users`          — `createUserHandler`    (src/routes/userRoutes.ts)
* `GET /users/:userId/urls` — `listUserUrlsHandler` (src/routes/userRoutes.ts)

The database state is a triple of row lists for the `users`, `urls` and
`clicks` tables of `src/db/models/schema.ts`.  Database statements are
modelled with PostgreSQL semantics: unique and foreign-key constraints are
exactly the constraints the Drizzle schema declares, failed statements leave
the state unchanged and surface as `DbError`, and `INSERT ... ON CONFLICT`
requires the conflict target to be covered by a unique constraint
(SQLSTATE 42P10 otherwise).  Timestamps (`new Date()`) and generated row
ids (`gen_random_uuid()`, `crypto.randomBytes`) enter the handlers as
explicit parameters.
-/

namespace Minilink

/-- Row of the `users` table (schema.ts): uuid primary key, required first
and last name, unique email, optional phone number and profile image URL. -/
structure UserRow where
  id : String
  firstName : String
  lastName : String
  email : String
  phoneNumber : Option String
  profileImageUrl : Option String
  deriving DecidableEq, Repr

/-- Row of the `urls` table (schema.ts): 8-char varchar primary key,
required original URL, unique short URL, nullable user reference. -/
structure UrlRow where
  id : String
  originalUrl : String
  shortUrl : String
  userId : Option String
  deriving DecidableEq, Repr

/-- Row of the `clicks` table (schema.ts): uuid primary key, nullable
varchar(8) reference to `urls.id`, click count, last-clicked timestamp. -/
structure ClickRow where
  id : String
  urlId : Option String
  clickCount : Int
  lastClickedAt : Nat
  deriving DecidableEq, Repr

/-- The relational store: the three tables of the schema. -/
structure DB where
  users : List UserRow
  urls : List UrlRow
  clicks : List ClickRow
  deriving DecidableEq, Repr

/-- The freshly migrated database: all three tables empty. -/
def emptyDB : DB := ⟨[], [], []⟩

/-- The unique constraints the Drizzle schema declares (primary keys plus
the two explicit `.unique()` columns `users.email` and `urls.shortUrl`).
Note that `clicks.urlId` carries only `references(() => urls.id)` — a
foreign key, not a unique constraint — so no constraint for it exists. -/
inductive UniqueConstraint
  | usersPkey
  | usersEmailUnique
  | urlsPkey
  | urlsShortUrlUnique
  | clicksPkey
  deriving DecidableEq, Repr

/-- PostgreSQL constraint name, as it appears in error messages. -/
def UniqueConstraint.pgName : UniqueConstraint → String
  | .usersPkey => "users_pkey"
  | .usersEmailUnique => "users_email_unique"
  | .urlsPkey => "urls_pkey"
  | .urlsShortUrlUnique => "urls_short_url_unique"
  | .clicksPkey => "clicks_pkey"

/-- Errors a database statement can raise in this model. -/
inductive DbError
  | uniqueViolation (c : UniqueConstraint)
  | fkViolation (constraintName : String)
  | onConflictTargetNotUnique
  deriving DecidableEq, Repr

/-- The PostgreSQL error message text the Node driver surfaces, as far as
the handlers inspect it (`error.message.includes('duplicate key')`). -/
def DbError.message : DbError → String
  | .uniqueViolation c =>
      "duplicate key value violates unique constraint " ++ c.pgName
  | .fkViolation n =>
      "insert or update on table violates foreign key constraint " ++ n
  | .onConflictTargetNotUnique =>
      "there is no unique or exclusion constraint matching the ON CONFLICT specification"

/-- Whether the character list `pat` occurs as a contiguous sublist of the
second argument. -/
def charsInclude (pat : List Char) : List Char → Bool
  | [] => pat.isEmpty
  | c :: rest => pat.isPrefixOf (c :: rest) || charsInclude pat rest

/-- JavaScript `haystack.includes(needle)` on strings. -/
def includesSubstr (s pat : String) : Bool :=
  charsInclude pat.data s.data

/-- Whether the `clicks.url_id` column is covered by a unique constraint.
In `src/db/models/schema.ts` the column is declared as
`varchar('url_id', ...).references(() => urls.id)` with no `.unique()`,
and the migration adds only the foreign key, so the answer is `false`. -/
def clicksUrlIdHasUnique : Bool := false

/-- `INSERT INTO users ...` under the schema's constraints: the uuid
primary key and the unique email.  On violation nothing is written. -/
def insertUser (row : UserRow) (db : DB) : Except DbError DB :=
  if db.users.any (fun u => u.id == row.id) then
    .error (.uniqueViolation .usersPkey)
  else if db.users.any (fun u => u.email == row.email) then
    .error (.uniqueViolation .usersEmailUnique)
  else
    .ok { db with users := db.users ++ [row] }

/-- `INSERT INTO urls ...` under the schema's constraints: the varchar(8)
primary key, the unique short URL, and the foreign key to `users.id`. -/
def insertUrl (row : UrlRow) (db : DB) : Except DbError DB :=
  if db.urls.any (fun u => u.id == row.id) then
    .error (.uniqueViolation .urlsPkey)
  else if db.urls.any (fun u => u.shortUrl == row.shortUrl) then
    .error (.uniqueViolation .urlsShortUrlUnique)
  else
    match row.userId with
    | none => .ok { db with urls := db.urls ++ [row] }
    | some uid =>
        if db.users.any (fun u => u.id == uid) then
          .ok { db with urls := db.urls ++ [row] }
        else
          .error (.fkViolation "urls_user_id_users_id_fk")

/-- The redirect handler's statement
`INSERT INTO clicks (url_id, click_count, last_clicked_at)
 VALUES (urlId, 1, now) ON CONFLICT (url_id) DO UPDATE
 SET click_count = clicks.click_count + 1, last_clicked_at = now`
with PostgreSQL semantics: the conflict target `(url_id)` must be covered
by a unique or exclusion constraint, otherwise the whole statement fails
(SQLSTATE 42P10) before touching the table.  When the target is covered,
the statement updates the conflicting row if one exists and inserts a
fresh row (count 1) otherwise, as a single atomic statement. -/
def upsertClick (targetHasUnique : Bool) (newRowId : String) (urlId : String)
    (now : Nat) (db : DB) : Except DbError DB :=
  if targetHasUnique then
    match db.clicks.find? (fun c => c.urlId == some urlId) with
    | some _ =>
        .ok { db with clicks := db.clicks.map (fun c =>
          if c.urlId == some urlId then
            { c with clickCount := c.clickCount + 1, lastClickedAt := now }
          else c) }
    | none =>
        .ok { db with clicks := db.clicks ++ [⟨newRowId, some urlId, 1, now⟩] }
  else
    .error .onConflictTargetNotUnique

/-- JavaScript falsiness of a possibly-absent string field
(`!originalUrl`): `undefined` and the empty string are falsy. -/
def jsFalsy : Option String → Bool
  | none => true
  | some s => s.isEmpty

/-- Lower-case hexadecimal digit for a nibble, as `Buffer.toString('hex')`
produces: 0–9 then a–f. -/
def hexDigit (n : Nat) : Char :=
  if n < 10 then Char.ofNat (48 + n) else Char.ofNat (87 + n)

/-- One byte as two lower-case hex characters. -/
def byteToHex (b : Nat) : String :=
  String.mk [hexDigit (b % 256 / 16), hexDigit (b % 16)]

/-- `Buffer.toString('hex')`: each byte becomes two hex characters. -/
def bytesToHex : List Nat → String
  | [] => ""
  | b :: bs => byteToHex b ++ bytesToHex bs

/-- Successful body of `POST /shorten` (201), the columns the handler
returns: id, originalUrl, shortUrl. -/
structure ShortenOk where
  id : String
  originalUrl : String
  shortUrl : String
  deriving DecidableEq, Repr

/-- Responses of the `POST /shorten` handler. -/
inductive ShortenResp
  | created (r : ShortenOk)
  | badRequest
  | serverError
  deriving DecidableEq, Repr

/-- HTTP status the handler sends with each `POST /shorten` outcome. -/
def ShortenResp.statusCode : ShortenResp → Nat
  | .created _ => 201
  | .badRequest => 400
  | .serverError => 500

/-- The `POST /shorten` handler (urlRoutes.ts).  The four random bytes of
`crypto.randomBytes(4)` and the request's protocol and hostname are
explicit parameters.  Control flow as in the source: reject with 400 when
`!originalUrl || !userId`, otherwise hex-encode the bytes to the short id,
build the short URL, insert the row and answer 201 with the returned
columns, or 500 when the insert throws. -/
def shortenHandler (originalUrl userId : Option String) (randomBytes : List Nat)
    (protocol hostname : String) (db : DB) : DB × ShortenResp :=
  if jsFalsy originalUrl || jsFalsy userId then
    (db, .badRequest)
  else
    match insertUrl ⟨bytesToHex randomBytes, originalUrl.getD "",
        protocol ++ "://" ++ hostname ++ "/" ++ bytesToHex randomBytes,
        some (userId.getD "")⟩ db with
    | .ok db1 =>
        (db1, .created ⟨bytesToHex randomBytes, originalUrl.getD "",
          protocol ++ "://" ++ hostname ++ "/" ++ bytesToHex randomBytes⟩)
    | .error _ => (db, .serverError)

/-- Row shape of the stats query: url columns joined with the (nullable)
click columns. -/
structure StatsRow where
  id : String
  originalUrl : String
  shortUrl : String
  clickCount : Option Int
  lastClickedAt : Option Nat
  deriving DecidableEq, Repr

/-- Responses of the `GET /urls/:id/stats` handler. -/
inductive StatsResp
  | ok (r : StatsRow)
  | notFound
  deriving DecidableEq, Repr

/-- HTTP status the handler sends with each stats outcome. -/
def StatsResp.statusCode : StatsResp → Nat
  | .ok _ => 200
  | .notFound => 404

/-- The join rows one url row contributes to
`urls LEFT JOIN clicks ON urls.id = clicks.url_id`: one row per matching
click row, or a single row with null click columns when none match. -/
def urlJoinRows (u : UrlRow) (clickTable : List ClickRow) :
    List (UrlRow × Option ClickRow) :=
  match clickTable.filter (fun c => c.urlId == some u.id) with
  | [] => [(u, none)]
  | cs => cs.map (fun c => (u, some c))

/-- The left join of a list of url rows with the click table, in url-row
order. -/
def joinList : List UrlRow → List ClickRow → List (UrlRow × Option ClickRow)
  | [], _ => []
  | u :: us, clickTable => urlJoinRows u clickTable ++ joinList us clickTable

/-- SQL `FROM urls LEFT JOIN clicks ON urls.id = clicks.url_id`: each url
row paired with every matching click row, or with null when none match. -/
def leftJoinUrlsClicks (db : DB) : List (UrlRow × Option ClickRow) :=
  joinList db.urls db.clicks

/-- The `GET /urls/:id/stats` handler (urlRoutes.ts): select
id/originalUrl/shortUrl/clickCount/lastClickedAt from the left join,
filtered to `urls.id = id`; the first row is the answer (200), no row
means 404.  The click columns are forwarded as they come from the join:
null when the url was never clicked. -/
def statsHandler (id : String) (db : DB) : DB × StatsResp :=
  match (leftJoinUrlsClicks db).filter (fun p => p.1.id == id) with
  | [] => (db, .notFound)
  | p :: _ =>
      (db, .ok ⟨p.1.id, p.1.originalUrl, p.1.shortUrl,
        p.2.map (fun c => c.clickCount), p.2.map (fun c => c.lastClickedAt)⟩)

/-- Responses of the `GET /:shortId` redirect handler. -/
inductive RedirectResp
  | redirectTo (url : String)
  | notFound
  | serverError
  deriving DecidableEq, Repr

/-- HTTP status the handler sends with each redirect outcome. -/
def RedirectResp.statusCode : RedirectResp → Nat
  | .redirectTo _ => 302
  | .notFound => 404
  | .serverError => 500

/-- The `GET /:shortId` redirect handler (urlRoutes.ts): select the url
row with `urls.id = shortId`; if present, run the click upsert (see
`upsertClick`; the schema gives its conflict target no unique constraint,
so `clicksUrlIdHasUnique` is passed) and redirect to the original URL; an
exception from the statement is caught and answered with 500; an absent
url row is answered with 404. -/
def redirectHandler (shortId : String) (newClickRowId : String) (now : Nat)
    (db : DB) : DB × RedirectResp :=
  match db.urls.find? (fun u => u.id == shortId) with
  | some urlRecord =>
      match upsertClick clicksUrlIdHasUnique newClickRowId urlRecord.id now db with
      | .ok db1 => (db1, .redirectTo urlRecord.originalUrl)
      | .error _ => (db, .serverError)
  | none => (db, .notFound)

/-- Responses of the `POST /users` handler. -/
inductive UserCreateResp
  | created (u : UserRow)
  | conflict
  | serverError
  deriving DecidableEq, Repr

/-- HTTP status the handler sends with each `POST /users` outcome. -/
def UserCreateResp.statusCode : UserCreateResp → Nat
  | .created _ => 201
  | .conflict => 409
  | .serverError => 500

/-- The `POST /users` handler (userRoutes.ts): insert the row (phone and
image default to null) and answer 201 with the returned columns; a thrown
error whose message includes the text `duplicate key` is answered with
409, any other error with 500. -/
def createUserHandler (firstName lastName email : String)
    (phoneNumber profileImageUrl : Option String) (newRowId : String)
    (db : DB) : DB × UserCreateResp :=
  match insertUser ⟨newRowId, firstName, lastName, email, phoneNumber, profileImageUrl⟩ db with
  | .ok db1 =>
      (db1, .created ⟨newRowId, firstName, lastName, email, phoneNumber, profileImageUrl⟩)
  | .error e =>
      if includesSubstr e.message "duplicate key" then (db, .conflict)
      else (db, .serverError)

/-- Click statistics sub-object of a listed url. -/
structure ClickStats where
  clickCount : Int
  lastClickedAt : Nat
  deriving DecidableEq, Repr

/-- One entry of the `GET /users/:userId/urls` response: url columns with
the nested (nullable) click statistics. -/
structure UserUrlItem where
  id : String
  originalUrl : String
  shortUrl : String
  clicks : Option ClickStats
  deriving DecidableEq, Repr

/-- Responses of the `GET /users/:userId/urls` handler. -/
inductive UserUrlsResp
  | ok (items : List UserUrlItem)
  | notFound
  deriving DecidableEq, Repr

/-- HTTP status the handler sends with each list-urls outcome. -/
def UserUrlsResp.statusCode : UserUrlsResp → Nat
  | .ok _ => 200
  | .notFound => 404

/-- The `GET /users/:userId/urls` handler (userRoutes.ts): first select
the user row with `users.id = userId` (404 when absent), then select the
left join of urls with clicks restricted to `urls.user_id = userId`. -/
def listUserUrlsHandler (userId : String) (db : DB) : DB × UserUrlsResp :=
  match db.users.find? (fun u => u.id == userId) with
  | none => (db, .notFound)
  | some _ =>
      (db, .ok (((leftJoinUrlsClicks db).filter (fun p => p.1.userId == some userId)).map
        (fun p => ⟨p.1.id, p.1.originalUrl, p.1.shortUrl,
          p.2.map (fun c => ⟨c.clickCount, c.lastClickedAt⟩)⟩)))

/-- Database states reachable from the freshly migrated (empty) database
by the five operations of the service, each with arbitrary inputs,
generated ids, random bytes and timestamps. -/
inductive Reachable : DB → Prop
  | init : Reachable emptyDB
  | shorten (originalUrl userId : Option String) (randomBytes : List Nat)
      (protocol hostname : String) {db : DB} : Reachable db →
      Reachable (shortenHandler originalUrl userId randomBytes protocol hostname db).1
  | redirect (shortId newClickRowId : String) (now : Nat) {db : DB} : Reachable db →
      Reachable (redirectHandler shortId newClickRowId now db).1
  | stats (id : String) {db : DB} : Reachable db →
      Reachable (statsHandler id db).1
  | createUser (firstName lastName email : String)
      (phoneNumber profileImageUrl : Option String) (newRowId : String) {db : DB} :
      Reachable db →
      Reachable (createUserHandler firstName lastName email phoneNumber profileImageUrl newRowId db).1
  | listUserUrls (userId : String) {db : DB} : Reachable db →
      Reachable (listUserUrlsHandler userId db).1

/-- The click rows recorded for the url id `u`. -/
def clickRowsFor (u : String) (db : DB) : List ClickRow :=
  db.clicks.filter (fun c => c.urlId == some u)

/-- `n` successive redirects of the same short id (state part only);
`now` advances by one per request so the timestamps are distinct. -/
def redirectN : Nat → String → String → Nat → DB → DB
  | 0, _, _, _, db => db
  | n + 1, shortId, rowId, now, db =>
      redirectN n shortId rowId (now + 1) (redirectHandler shortId rowId now db).1

/-- A registered user, used as a concrete test fixture. -/
def adaRow : UserRow := ⟨"u-1", "Ada", "Lovelace", "ada@example.com", none, none⟩

/-- A shortened url owned by `adaRow`, used as a concrete test fixture. -/
def exampleUrlRow : UrlRow :=
  ⟨"aaaaaaaa", "http://example.com", "http://localhost:8080/aaaaaaaa", some "u-1"⟩

/-- A database with one user and one never-clicked url.  It is the state
the service reaches from `emptyDB` by one `POST /users` and one
`POST /shorten` (see `fixtureDB_reached`). -/
def fixtureDB : DB := ⟨[adaRow], [exampleUrlRow], []⟩

/-- The database reached from `emptyDB` by creating `adaRow` and then
shortening `http://example.com` with random bytes aa aa aa aa. -/
def reachedDB : DB :=
  (shortenHandler (some "http://example.com") (some "u-1") [170, 170, 170, 170]
    "http" "localhost:8080"
    (createUserHandler "Ada" "Lovelace" "ada@example.com" none none "u-1" emptyDB).1).1

/-- A second url fixture, owned by `adaRow` and clicked once. -/
def secondUrlRow : UrlRow :=
  ⟨"00010203", "http://two.example.com", "http://localhost:8080/00010203", some "u-1"⟩

/-- The click row of `secondUrlRow` in `clickedDB`. -/
def secondClickRow : ClickRow := ⟨"c-1", some "00010203", 3, 42⟩

/-- A database with one user, two urls and one click row: `exampleUrlRow`
was never clicked, `secondUrlRow` was clicked three times. -/
def clickedDB : DB := ⟨[adaRow], [exampleUrlRow, secondUrlRow], [secondClickRow]⟩

/-!
## Helper lemmas
-/

/-- Unique-constraint violations carry the `duplicate key` message text
the user handler tests for. -/
lemma uniqueViolation_msg_has_dup_key (c : UniqueConstraint) :
    includesSubstr (DbError.message (.uniqueViolation c)) "duplicate key" = true := by
  cases c <;> decide

/-- A successful url insert appends the row to the `urls` table and
touches nothing else. -/
lemma insertUrl_ok (row : UrlRow) (db db1 : DB) (h : insertUrl row db = .ok db1) :
    db1 = { db with urls := db.urls ++ [row] } := by
  unfold insertUrl at h
  split at h
  · simp at h
  · split at h
    · simp at h
    · split at h
      · simp at h; exact h.symm
      · split at h
        · simp at h; exact h.symm
        · simp at h

/-- A successful user insert appends the row to the `users` table and
touches nothing else. -/
lemma insertUser_ok (row : UserRow) (db db1 : DB) (h : insertUser row db = .ok db1) :
    db1 = { db with users := db.users ++ [row] } := by
  unfold insertUser at h
  split at h
  · simp at h
  · split at h
    · simp at h
    · simp at h; exact h.symm

/-- The redirect handler never changes the database: its only write is the
click upsert, whose conflict target `clicks.url_id` has no unique
constraint in the schema, so the statement always fails and is caught. -/
lemma redirect_fst_eq (shortId rowId : String) (now : Nat) (db : DB) :
    (redirectHandler shortId rowId now db).1 = db := by
  unfold redirectHandler upsertClick clicksUrlIdHasUnique
  cases db.urls.find? (fun u => u.id == shortId) <;> simp

/-- The shorten handler either leaves the database unchanged or appends
exactly the new url row. -/
lemma shorten_fst (originalUrl userId : Option String) (bs : List Nat)
    (protocol hostname : String) (db : DB) :
    (shortenHandler originalUrl userId bs protocol hostname db).1 = db ∨
    (shortenHandler originalUrl userId bs protocol hostname db).1 =
      { db with urls := db.urls ++ [⟨bytesToHex bs, originalUrl.getD "",
          protocol ++ "://" ++ hostname ++ "/" ++ bytesToHex bs,
          some (userId.getD "")⟩] } := by
  unfold shortenHandler
  split
  · exact Or.inl rfl
  · rename_i hc
    cases h : insertUrl ⟨bytesToHex bs, originalUrl.getD "",
        protocol ++ "://" ++ hostname ++ "/" ++ bytesToHex bs,
        some (userId.getD "")⟩ db with
    | ok db1 =>
        right
        simp only [h]
        simpa using insertUrl_ok _ _ _ h
    | error e =>
        left
        simp only [h]

/-- The shorten handler never touches the `clicks` table. -/
lemma shorten_clicks_eq (originalUrl userId : Option String) (bs : List Nat)
    (protocol hostname : String) (db : DB) :
    (shortenHandler originalUrl userId bs protocol hostname db).1.clicks = db.clicks := by
  rcases shorten_fst originalUrl userId bs protocol hostname db with h | h <;> rw [h]

/-- The user-create handler either leaves the database unchanged or
appends exactly the new user row. -/
lemma createUser_fst (firstName lastName email : String)
    (phone img : Option String) (newRowId : String) (db : DB) :
    (createUserHandler firstName lastName email phone img newRowId db).1 = db ∨
    (createUserHandler firstName lastName email phone img newRowId db).1 =
      { db with users := db.users ++
          [⟨newRowId, firstName, lastName, email, phone, img⟩] } := by
  unfold createUserHandler
  cases h : insertUser ⟨newRowId, firstName, lastName, email, phone, img⟩ db with
  | ok db1 =>
      right
      simp only [h]
      simpa using insertUser_ok _ _ _ h
  | error e =>
      left
      simp only [h]
      split <;> rfl

/-- The user-create handler never touches the `clicks` table. -/
lemma createUser_clicks_eq (firstName lastName email : String)
    (phone img : Option String) (newRowId : String) (db : DB) :
    (createUserHandler firstName lastName email phone img newRowId db).1.clicks
      = db.clicks := by
  rcases createUser_fst firstName lastName email phone img newRowId db with h | h <;>
    rw [h]

/-- The stats handler returns the database unchanged. -/
lemma stats_fst (id : String) (db : DB) : (statsHandler id db).1 = db := by
  unfold statsHandler
  split <;> rfl

/-- The list-urls handler returns the database unchanged. -/
lemma listUserUrls_fst (userId : String) (db : DB) :
    (listUserUrlsHandler userId db).1 = db := by
  unfold listUserUrlsHandler
  split <;> rfl

/-- In every reachable database state the `clicks` table is empty: no
operation of the service ever succeeds in writing a click row, because
the only statement that writes one is the redirect upsert and it always
fails (no unique constraint covers its conflict target). -/
lemma reachable_clicks_nil (db : DB) (h : Reachable db) : db.clicks = [] := by
  induction h with
  | init => rfl
  | shorten ou uid bs p hn _ ih => rw [shorten_clicks_eq]; exact ih
  | redirect sid rid now _ ih => rw [redirect_fst_eq]; exact ih
  | stats id _ ih => rw [stats_fst]; exact ih
  | createUser fn ln em ph img nid _ ih => rw [createUser_clicks_eq]; exact ih
  | listUserUrls uid _ ih => rw [listUserUrls_fst]; exact ih

/-- One byte always hex-encodes to two characters. -/
lemma byteToHex_length (b : Nat) : (byteToHex b).length = 2 := rfl

/-- Hex encoding doubles the length: 4 random bytes give 8 characters. -/
lemma bytesToHex_length (bs : List Nat) : (bytesToHex bs).length = 2 * bs.length := by
  induction bs with
  | nil => rfl
  | cons b bs ih =>
      rw [bytesToHex, String.length_append, byteToHex_length, ih, List.length_cons]
      ring

/-- The fixture database is an actual service state: it is reached from
the empty database by one user creation and one shorten request. -/
lemma fixtureDB_reachable : Reachable fixtureDB :=
  Reachable.shorten (some "http://example.com") (some "u-1") [170, 170, 170, 170]
    "http" "localhost:8080"
    (Reachable.createUser "Ada" "Lovelace" "ada@example.com" none none "u-1"
      Reachable.init)

/-- A successful user insert implies no existing row had the same email
(the unique-constraint check passed). -/
lemma insertUser_ok_email_fresh (row : UserRow) (db db1 : DB)
    (h : insertUser row db = .ok db1) :
    db.users.any (fun u => u.email == row.email) = false := by
  unfold insertUser at h
  split at h
  · simp at h
  · split at h
    · simp at h
    · rename_i h1 h2
      simpa using h2

/-- The shorten handler never touches the `users` table. -/
lemma shorten_users_eq (originalUrl userId : Option String) (bs : List Nat)
    (protocol hostname : String) (db : DB) :
    (shortenHandler originalUrl userId bs protocol hostname db).1.users = db.users := by
  rcases shorten_fst originalUrl userId bs protocol hostname db with h | h <;> rw [h]

/-- One user-create request preserves email uniqueness: it appends a row
only when the unique-email check passes. -/
lemma createUser_email_unique_step (firstName lastName email : String)
    (phone img : Option String) (newRowId : String) (db : DB)
    (hinv : ∀ e, (db.users.filter (fun u => u.email == e)).length ≤ 1) (e : String) :
    (((createUserHandler firstName lastName email phone img newRowId db).1.users).filter
      (fun u => u.email == e)).length ≤ 1 := by
  unfold createUserHandler
  cases hins : insertUser ⟨newRowId, firstName, lastName, email, phone, img⟩ db with
  | error e0 =>
      simp only [hins]
      split <;> exact hinv e
  | ok db1 =>
      simp only [hins]
      have hdb1 := insertUser_ok _ _ _ hins
      have hfresh := insertUser_ok_email_fresh _ _ _ hins
      rw [hdb1]
      simp only [List.filter_append]
      cases he : (email == e) with
      | true =>
          have hee : email = e := by simpa using he
          have hnil : db.users.filter (fun u => u.email == e) = [] := by
            apply List.filter_eq_nil_iff.2
            intro a ha
            subst hee
            simp only [List.any_eq_false] at hfresh
            exact hfresh a ha
          rw [hnil, List.nil_append]
          simp [List.filter, he]
      | false =>
          have hnil : (([⟨newRowId, firstName, lastName, email, phone, img⟩] :
              List UserRow).filter (fun u => u.email == e)) = [] := by
            simp [List.filter, he]
          rw [hnil, List.append_nil]
          exact hinv e

/-- In every reachable database state no two user rows share an email. -/
lemma reachable_email_unique (db : DB) (h : Reachable db) :
    ∀ e, (db.users.filter (fun u => u.email == e)).length ≤ 1 := by
  induction h with
  | init => intro e; simp [emptyDB]
  | shorten ou uid bs p hn _ ih => intro e; rw [shorten_users_eq]; exact ih e
  | redirect sid rid now _ ih => intro e; rw [redirect_fst_eq]; exact ih e
  | stats id _ ih => intro e; rw [stats_fst]; exact ih e
  | createUser fn ln em ph img nid _ ih =>
      intro e
      exact createUser_email_unique_step fn ln em ph img nid _ ih e
  | listUserUrls uid _ ih => intro e; rw [listUserUrls_fst]; exact ih e

/-!
## Claim theorems
-/

/-- C1 (refuted, code bug): redirecting to an existing short id does not
upsert a click row.  At the concrete state `fixtureDB` (which contains the
url row `aaaaaaaa`), the first redirect already answers 500 with the
database unchanged, the second redirect answers 500 as well, and after
both redirects the `clicks` table is still empty — so no click row with
`clickCount = 2` exists.  The claimed upsert dies because its conflict
target `clicks.url_id` has no unique constraint in the schema. -/
theorem redirect_valid_id_upsert_fails :
    redirectHandler "aaaaaaaa" "c-1" 5 fixtureDB = (fixtureDB, RedirectResp.serverError) ∧
    (redirectHandler "aaaaaaaa" "c-2" 6
        (redirectHandler "aaaaaaaa" "c-1" 5 fixtureDB).1).2 = RedirectResp.serverError ∧
    (redirectHandler "aaaaaaaa" "c-2" 6
        (redirectHandler "aaaaaaaa" "c-1" 5 fixtureDB).1).1.clicks = [] :=
  ⟨rfl, rfl, rfl⟩

/-- C2: in every reachable database state there is at most one click row
per url id; no operation of the service can break this. -/
theorem at_most_one_click_row_per_url (db : DB) (hdb : Reachable db) (u : String) :
    (clickRowsFor u db).length ≤ 1 := by
  rw [clickRowsFor, reachable_clicks_nil db hdb]
  simp

/-- C2 witness: the invariant, instantiated at the reachable state
`fixtureDB` and the url id it contains. -/
theorem at_most_one_click_row_per_url_witness :
    (clickRowsFor "aaaaaaaa" fixtureDB).length ≤ 1 :=
  at_most_one_click_row_per_url fixtureDB fixtureDB_reachable "aaaaaaaa"

/-- C3 (refuted, code bug): `n` redirects to an existing short id leave
the database exactly as it was — in particular no click row with
`clickCount = n` exists afterwards, because the single upsert statement
always fails (SQLSTATE 42P10: no unique constraint covers `url_id`). -/
theorem redirectN_leaves_db_unchanged (n : Nat) (shortId rowId : String) (now : Nat)
    (db : DB) (_hurl : db.urls.any (fun u => u.id == shortId) = true) :
    redirectN n shortId rowId now db = db := by
  induction n generalizing now with
  | zero => rfl
  | succ n ih => rw [redirectN, redirect_fst_eq]; exact ih _

/-- C3 witness: two redirects to the existing short id `aaaaaaaa` of
`fixtureDB` leave the state unchanged (clicks stay empty). -/
theorem redirectN_leaves_db_unchanged_witness :
    redirectN 2 "aaaaaaaa" "c-1" 5 fixtureDB = fixtureDB :=
  redirectN_leaves_db_unchanged 2 "aaaaaaaa" "c-1" 5 fixtureDB rfl

/-- C4: redirecting to a short id with no matching url row answers 404
and leaves the database (in particular the `clicks` table) unchanged. -/
theorem redirect_unknown_id_404 (shortId rowId : String) (now : Nat) (db : DB)
    (hfind : db.urls.find? (fun u => u.id == shortId) = none) :
    redirectHandler shortId rowId now db = (db, RedirectResp.notFound) ∧
    RedirectResp.statusCode (redirectHandler shortId rowId now db).2 = 404 := by
  have h : redirectHandler shortId rowId now db = (db, RedirectResp.notFound) := by
    unfold redirectHandler
    rw [hfind]
  rw [h]
  exact ⟨rfl, rfl⟩

/-- C4 witness: redirecting to the unknown id `bbbbbbbb` on `fixtureDB`. -/
theorem redirect_unknown_id_404_witness :
    redirectHandler "bbbbbbbb" "c-1" 5 fixtureDB = (fixtureDB, RedirectResp.notFound) ∧
    RedirectResp.statusCode (redirectHandler "bbbbbbbb" "c-1" 5 fixtureDB).2 = 404 :=
  redirect_unknown_id_404 "bbbbbbbb" "c-1" 5 fixtureDB rfl

/-- C10: the stats operation is read-only — for every id and every
starting state, the database after the operation is the one before it,
whether the lookup answers 200 or 404. -/
theorem stats_is_read_only (id : String) (db : DB) : (statsHandler id db).1 = db :=
  stats_fst id db

/-- C5: a shorten request with a valid payload (both fields present and
non-empty, the user existing, the generated id and short URL fresh)
answers 201 with the id hex-encoded from the 4 random bytes — hence
exactly 8 characters — a short URL carrying that id as its final path
segment, and the original URL. -/
theorem shorten_valid_payload_201 (ou uid : String) (bs : List Nat)
    (protocol hostname : String) (db : DB)
    (hou : ou.isEmpty = false) (huid : uid.isEmpty = false)
    (hlen : bs.length = 4)
    (hid : db.urls.any (fun u => u.id == bytesToHex bs) = false)
    (hsu : db.urls.any
      (fun u => u.shortUrl == protocol ++ "://" ++ hostname ++ "/" ++ bytesToHex bs) = false)
    (huser : db.users.any (fun u => u.id == uid) = true) :
    shortenHandler (some ou) (some uid) bs protocol hostname db =
      ({ db with urls := db.urls ++ [⟨bytesToHex bs, ou,
          protocol ++ "://" ++ hostname ++ "/" ++ bytesToHex bs, some uid⟩] },
        ShortenResp.created ⟨bytesToHex bs, ou,
          protocol ++ "://" ++ hostname ++ "/" ++ bytesToHex bs⟩) ∧
    (bytesToHex bs).length = 8 ∧
    ShortenResp.statusCode (shortenHandler (some ou) (some uid) bs protocol hostname db).2
      = 201 := by
  have hins : insertUrl ⟨bytesToHex bs, ou,
      protocol ++ "://" ++ hostname ++ "/" ++ bytesToHex bs, some uid⟩ db =
      Except.ok { db with urls := db.urls ++ [⟨bytesToHex bs, ou,
        protocol ++ "://" ++ hostname ++ "/" ++ bytesToHex bs, some uid⟩] } := by
    unfold insertUrl
    simp [hid, hsu, huser]
  have hmain : shortenHandler (some ou) (some uid) bs protocol hostname db =
      ({ db with urls := db.urls ++ [⟨bytesToHex bs, ou,
          protocol ++ "://" ++ hostname ++ "/" ++ bytesToHex bs, some uid⟩] },
        ShortenResp.created ⟨bytesToHex bs, ou,
          protocol ++ "://" ++ hostname ++ "/" ++ bytesToHex bs⟩) := by
    unfold shortenHandler
    simp only [jsFalsy, hou, huid, Bool.or_self, Option.getD_some, hins]
    simp
  refine ⟨hmain, ?_, ?_⟩
  · rw [bytesToHex_length, hlen]
  · rw [hmain]
    rfl

/-- C5 witness: shortening `http://x.com` for the existing user of
`fixtureDB` with random bytes 00 01 02 03. -/
theorem shorten_valid_payload_201_witness :
    (shortenHandler (some "http://x.com") (some "u-1") [0, 1, 2, 3] "http"
        "localhost:8080" fixtureDB).2
      = ShortenResp.created ⟨"00010203", "http://x.com", "http://localhost:8080/00010203"⟩ ∧
    (bytesToHex [0, 1, 2, 3]).length = 8 := by
  have h := shorten_valid_payload_201 "http://x.com" "u-1" [0, 1, 2, 3] "http"
    "localhost:8080" fixtureDB rfl rfl rfl rfl rfl rfl
  refine ⟨?_, h.2.1⟩
  rw [h.1]
  rfl

/-- C6 counterexample: when the generated short id already exists (the
random bytes aa aa aa aa collide with the url row of `fixtureDB`), the
handler answers 500 — not a 409 ConflictError as the claim states.  The
catch block of `POST /shorten` does not distinguish unique-constraint
violations. -/
theorem shorten_existing_id_500_not_409 :
    shortenHandler (some "http://x.com") (some "u-1") [170, 170, 170, 170] "http"
        "localhost:8080" fixtureDB = (fixtureDB, ShortenResp.serverError) ∧
    ShortenResp.statusCode ShortenResp.serverError ≠ 409 :=
  ⟨rfl, by decide⟩

/-- C6 amended: the shorten operation answers 400 exactly when
`originalUrl` or `userId` is absent or empty; every failure of the insert
— an existing short id, an existing short URL, or a missing user — is
answered 500; the handler has no 409 outcome at all. -/
theorem shorten_error_taxonomy (originalUrl userId : Option String) (bs : List Nat)
    (protocol hostname : String) (db : DB) :
    ((shortenHandler originalUrl userId bs protocol hostname db).2 = ShortenResp.badRequest
        ↔ (jsFalsy originalUrl || jsFalsy userId) = true)
    ∧ ((jsFalsy originalUrl || jsFalsy userId) = false →
        (insertUrl ⟨bytesToHex bs, originalUrl.getD "",
            protocol ++ "://" ++ hostname ++ "/" ++ bytesToHex bs,
            some (userId.getD "")⟩ db).isOk = false →
        shortenHandler originalUrl userId bs protocol hostname db
          = (db, ShortenResp.serverError))
    ∧ ShortenResp.statusCode (shortenHandler originalUrl userId bs protocol hostname db).2
        ≠ 409 := by
  by_cases hf : (jsFalsy originalUrl || jsFalsy userId) = true
  · unfold shortenHandler
    rw [if_pos hf]
    refine ⟨by simp [hf], ?_, by simp [ShortenResp.statusCode]⟩
    intro hfalse
    rw [hfalse] at hf
    exact absurd hf (by decide)
  · have hf2 : (jsFalsy originalUrl || jsFalsy userId) = false := by
      simpa using hf
    unfold shortenHandler
    rw [if_neg hf]
    cases hins : insertUrl ⟨bytesToHex bs, originalUrl.getD "",
        protocol ++ "://" ++ hostname ++ "/" ++ bytesToHex bs,
        some (userId.getD "")⟩ db with
    | ok db1 =>
        simp only [hins]
        refine ⟨by simp [hf2], ?_, by simp [ShortenResp.statusCode]⟩
        intro _ hok
        exact Bool.noConfusion hok
    | error e =>
        simp only [hins]
        exact ⟨by simp [hf2], by intro _ _; trivial, by simp [ShortenResp.statusCode]⟩

/-- C6 amended witness: the colliding shorten request of the
counterexample is answered 500 with the database unchanged. -/
theorem shorten_error_taxonomy_witness :
    shortenHandler (some "http://x.com") (some "u-1") [170, 170, 170, 170] "http"
        "localhost:8080" fixtureDB = (fixtureDB, ShortenResp.serverError) :=
  (shorten_error_taxonomy (some "http://x.com") (some "u-1") [170, 170, 170, 170]
    "http" "localhost:8080" fixtureDB).2.1 rfl rfl

/-- C8: creating a user with an email that is already registered (in a
reachable state) answers 409 ConflictError — detected through the
`duplicate key` unique-violation message — and does not change the
database; moreover no reachable state has two user rows with one email. -/
theorem duplicate_email_409 (firstName lastName email : String)
    (phone img : Option String) (newRowId : String) (db : DB)
    (hdb : Reachable db)
    (hdup : db.users.any (fun u => u.email == email) = true) :
    createUserHandler firstName lastName email phone img newRowId db
      = (db, UserCreateResp.conflict)
    ∧ UserCreateResp.statusCode UserCreateResp.conflict = 409
    ∧ ∀ e, (db.users.filter (fun u => u.email == e)).length ≤ 1 := by
  refine ⟨?_, rfl, reachable_email_unique db hdb⟩
  unfold createUserHandler
  cases hins : insertUser ⟨newRowId, firstName, lastName, email, phone, img⟩ db with
  | ok db1 =>
      exfalso
      have hfresh := insertUser_ok_email_fresh _ _ _ hins
      rw [hdup] at hfresh
      exact Bool.noConfusion hfresh
  | error e0 =>
      simp only [hins]
      have hcu : ∃ c, e0 = DbError.uniqueViolation c := by
        unfold insertUser at hins
        split at hins
        all_goals first
          | exact ⟨.usersPkey, by simpa using hins.symm⟩
          | exact ⟨.usersEmailUnique, by simpa using hins.symm⟩
      obtain ⟨c, rfl⟩ := hcu
      rw [if_pos (uniqueViolation_msg_has_dup_key c)]

/-- C8 witness: re-registering the email of the existing user of the
reachable state `fixtureDB`. -/
theorem duplicate_email_409_witness :
    createUserHandler "Eve" "X" "ada@example.com" none none "u-2" fixtureDB
      = (fixtureDB, UserCreateResp.conflict) :=
  (duplicate_email_409 "Eve" "X" "ada@example.com" none none "u-2" fixtureDB
    fixtureDB_reachable rfl).1

/-- Every row the url `u` contributes to the left join carries `u` as its
url part. -/
lemma urlJoinRows_fst (u : UrlRow) (ct : List ClickRow) :
    ∀ p ∈ urlJoinRows u ct, p.1 = u := by
  intro p hp
  unfold urlJoinRows at hp
  split at hp
  · simp at hp
    rw [hp]
  · rcases List.mem_map.1 hp with ⟨c, _, rfl⟩
    rfl

/-- When no url row matches the id, the where-filtered join is empty. -/
lemma joinList_filter_of_none (id : String) (urls : List UrlRow) (ct : List ClickRow)
    (hfind : urls.find? (fun x => x.id == id) = none) :
    (joinList urls ct).filter (fun p => p.1.id == id) = [] := by
  induction urls with
  | nil => rfl
  | cons u us ih =>
      cases hu : (u.id == id) with
      | true =>
          rw [List.find?_cons_of_pos us hu] at hfind
          cases hfind
      | false =>
          rw [List.find?_cons_of_neg us (by simp [hu])] at hfind
          rw [joinList, List.filter_append, ih hfind]
          rw [List.filter_eq_nil_iff.2 ?_, List.nil_append]
          intro p hp
          rw [urlJoinRows_fst u ct p hp, hu]
          simp

/-- When `u` is the first url row matching the id and `u` has no click
row, the where-filtered join starts with the null-extended row for `u`. -/
lemma joinList_filter_of_some (id : String) (urls : List UrlRow) (ct : List ClickRow)
    (u : UrlRow) (hfind : urls.find? (fun x => x.id == id) = some u)
    (hnc : ct.filter (fun c => c.urlId == some u.id) = []) :
    ∃ rest, (joinList urls ct).filter (fun p => p.1.id == id) = (u, none) :: rest := by
  induction urls with
  | nil => simp at hfind
  | cons u0 us ih =>
      cases hu : (u0.id == id) with
      | true =>
          rw [List.find?_cons_of_pos us hu] at hfind
          have hu0 : u0 = u := by
            simpa using hfind
          subst hu0
          refine ⟨(joinList us ct).filter (fun p => p.1.id == id), ?_⟩
          rw [joinList, List.filter_append]
          have hblock : urlJoinRows u0 ct = [(u0, none)] := by
            unfold urlJoinRows
            rw [hnc]
          rw [hblock]
          simp [List.filter, hu]
      | false =>
          rw [List.find?_cons_of_neg us (by simp [hu])] at hfind
          obtain ⟨rest, hr⟩ := ih hfind
          refine ⟨rest, ?_⟩
          rw [joinList, List.filter_append, hr]
          rw [List.filter_eq_nil_iff.2 ?_, List.nil_append]
          intro p hp
          rw [urlJoinRows_fst u0 ct p hp, hu]
          simp

/-- A url with at most one click row contributes exactly one join row,
carrying the head of its click matches (null when there are none). -/
lemma urlJoinRows_of_le_one (u : UrlRow) (ct : List ClickRow)
    (h : (ct.filter (fun c => c.urlId == some u.id)).length ≤ 1) :
    urlJoinRows u ct = [(u, (ct.filter (fun c => c.urlId == some u.id)).head?)] := by
  unfold urlJoinRows
  cases hc : ct.filter (fun c => c.urlId == some u.id) with
  | nil => rfl
  | cons c cs =>
      rw [hc] at h
      have hcs : cs = [] := by
        cases cs with
        | nil => rfl
        | cons d ds => simp at h
      subst hcs
      rfl

/-- When every url has at most one click row, filtering the join by owner
and shaping the items equals joining the owner-filtered urls with the
head of each url's click matches. -/
lemma joinList_filter_user (userId : String) (urls : List UrlRow) (ct : List ClickRow)
    (hone : urls.all (fun u =>
      decide ((ct.filter (fun c => c.urlId == some u.id)).length ≤ 1)) = true) :
    ((joinList urls ct).filter (fun p => p.1.userId == some userId)).map
        (fun p => (⟨p.1.id, p.1.originalUrl, p.1.shortUrl,
          p.2.map (fun c => ⟨c.clickCount, c.lastClickedAt⟩)⟩ : UserUrlItem))
      = (urls.filter (fun u => u.userId == some userId)).map (fun u =>
          (⟨u.id, u.originalUrl, u.shortUrl,
            ((ct.filter (fun c => c.urlId == some u.id)).head?).map
              (fun c => ⟨c.clickCount, c.lastClickedAt⟩)⟩ : UserUrlItem)) := by
  induction urls with
  | nil => rfl
  | cons u us ih =>
      rw [List.all_cons, Bool.and_eq_true] at hone
      obtain ⟨h1, h2⟩ := hone
      have h1b : (ct.filter (fun c => c.urlId == some u.id)).length ≤ 1 :=
        of_decide_eq_true h1
      rw [joinList, List.filter_append, List.map_append, ih h2,
        urlJoinRows_of_le_one u ct h1b, List.filter_cons]
      cases hq : (u.userId == some userId) with
      | true => simp [List.filter, hq]
      | false => simp [List.filter, hq]

/-- C7 counterexample: for a url that exists but was never clicked
(`fixtureDB`), the stats response carries `clickCount = null`, not the
claimed default of 0 — the handler forwards the left-join columns without
a null-safe default. -/
theorem stats_zero_clicks_null_not_zero :
    (statsHandler "aaaaaaaa" fixtureDB).2
      = StatsResp.ok ⟨"aaaaaaaa", "http://example.com",
          "http://localhost:8080/aaaaaaaa", none, none⟩
    ∧ (StatsRow.mk "aaaaaaaa" "http://example.com" "http://localhost:8080/aaaaaaaa"
        none none).clickCount ≠ some 0 :=
  ⟨rfl, by decide⟩

/-- C7 amended: stats answers 404 when no url row matches the id;
otherwise it answers the url's id, originalUrl and shortUrl, with
`clickCount` and `lastClickedAt` both null when no click row exists. -/
theorem stats_spec (id : String) (db : DB) :
    (db.urls.find? (fun x => x.id == id) = none →
      statsHandler id db = (db, StatsResp.notFound))
    ∧ (∀ u : UrlRow, db.urls.find? (fun x => x.id == id) = some u →
        db.clicks.filter (fun c => c.urlId == some u.id) = [] →
        statsHandler id db =
          (db, StatsResp.ok ⟨u.id, u.originalUrl, u.shortUrl, none, none⟩)) := by
  constructor
  · intro hfind
    unfold statsHandler leftJoinUrlsClicks
    rw [joinList_filter_of_none id db.urls db.clicks hfind]
  · intro u hfind hnc
    obtain ⟨rest, hr⟩ := joinList_filter_of_some id db.urls db.clicks u hfind hnc
    unfold statsHandler leftJoinUrlsClicks
    rw [hr]
    rfl

/-- C7 amended witness: stats of the never-clicked url of `fixtureDB`. -/
theorem stats_spec_witness :
    statsHandler "aaaaaaaa" fixtureDB
      = (fixtureDB, StatsResp.ok ⟨"aaaaaaaa", "http://example.com",
          "http://localhost:8080/aaaaaaaa", none, none⟩) :=
  (stats_spec "aaaaaaaa" fixtureDB).2 exampleUrlRow rfl rfl

/-- C9: listing a user's urls answers 404 when the user row is absent;
otherwise it answers every url row owned by the user, in table order,
each left-joined with its click statistics — null when never clicked,
the click row's count and timestamp when clicked.  (The hypothesis that
each url has at most one click row holds in every reachable state, see
`at_most_one_click_row_per_url`.) -/
theorem list_user_urls_spec (userId : String) (db : DB)
    (hone : db.urls.all (fun u =>
      decide ((db.clicks.filter (fun c => c.urlId == some u.id)).length ≤ 1)) = true) :
    (db.users.find? (fun u => u.id == userId) = none →
      listUserUrlsHandler userId db = (db, UserUrlsResp.notFound))
    ∧ (∀ w : UserRow, db.users.find? (fun u => u.id == userId) = some w →
        listUserUrlsHandler userId db = (db, UserUrlsResp.ok
          ((db.urls.filter (fun u => u.userId == some userId)).map (fun u =>
            ⟨u.id, u.originalUrl, u.shortUrl,
              ((db.clicks.filter (fun c => c.urlId == some u.id)).head?).map
                (fun c => ⟨c.clickCount, c.lastClickedAt⟩)⟩)))) := by
  constructor
  · intro hfind
    unfold listUserUrlsHandler
    rw [hfind]
  · intro w hfind
    unfold listUserUrlsHandler leftJoinUrlsClicks
    rw [hfind, joinList_filter_user userId db.urls db.clicks hone]

/-- C9 witness: the user of `clickedDB` owns a never-clicked url (null
stats) and a url clicked three times (count 3, timestamp 42). -/
theorem list_user_urls_spec_witness :
    listUserUrlsHandler "u-1" clickedDB = (clickedDB, UserUrlsResp.ok
      [⟨"aaaaaaaa", "http://example.com", "http://localhost:8080/aaaaaaaa", none⟩,
       ⟨"00010203", "http://two.example.com", "http://localhost:8080/00010203",
         some ⟨3, 42⟩⟩]) :=
  (list_user_urls_spec "u-1" clickedDB rfl).2 adaRow rfl

end Minilink
